import Mathlib

/-!
Verification of the AMM simulation core of the LVR-Diamond-DynamicBeta
repository (src/simulation), as a shallow embedding over exact rational
arithmetic.

Conventions used throughout:

* Python floats are modelled as `ℚ` (the spec's properties are stated for
  exact real-valued arithmetic).
* `math.sqrt` has no exact counterpart on `ℚ`, so every embedded function
  that calls it takes an explicit parameter `s : ℚ → ℚ` standing for the
  square-root routine.  Theorems that genuinely depend on square-root
  semantics assume `0 ≤ s a` and `s a ^ 2 = a` at the argument actually
  evaluated; theorems that hold for any value of the square root quantify
  over `s` with no assumption.
* `math.exp` is likewise passed as a parameter `E : ℚ → ℚ`; theorems about
  the dynamic-beta curve only assume `E` is monotone and positive, which
  are the two facts about `exp` the source relies on.
* Python dict reserves (`reserve : dict[Token, float]`) become functions
  `Token → ℚ`, mutated with `Function.update` in the statement order of
  the source; every in-place mutation of a pool becomes a functional
  update of the corresponding structure.
-/

namespace LVR

/-- Token enumeration from src/simulation/custom_types.py: exactly the two
assets ETH and USDC. -/
inductive Token where
  | ETH
  | USDC
deriving DecidableEq

/-- PriceFeed = dict[Token, float] from src/simulation/custom_types.py. -/
abbrev PriceFeed := Token → ℚ

/-- Vault dataclass from src/simulation/pool.py (lines 10-25). -/
structure Vault where
  token_x : Token
  token_y : Token
  reserve : Token → ℚ

/-- Vault.reserve_x property (pool.py lines 19-21). -/
def Vault.reserve_x (v : Vault) : ℚ := v.reserve v.token_x

/-- Vault.reserve_y property (pool.py lines 23-25). -/
def Vault.reserve_y (v : Vault) : ℚ := v.reserve v.token_y

/-- LiquidityPool dataclass from src/simulation/pool.py (lines 28-45):
token pair, reserve dict, fee, the dynamic_fee flag, and the scalar
cumulative counters `lvr` and `collected_fees` exactly as that file
declares them. -/
structure LiquidityPool where
  token_x : Token
  token_y : Token
  reserve : Token → ℚ
  fee : ℚ
  dynamic_fee : Bool
  lvr : ℚ
  collected_fees : ℚ

namespace LiquidityPool

/-- reserve_x property (pool.py lines 50-52). -/
def reserve_x (p : LiquidityPool) : ℚ := p.reserve p.token_x

/-- reserve_y property (pool.py lines 54-56). -/
def reserve_y (p : LiquidityPool) : ℚ := p.reserve p.token_y

/-- price property (pool.py lines 58-60). -/
def price (p : LiquidityPool) : ℚ := p.reserve_y / p.reserve_x

/-- total_value_locked (pool.py lines 66-70). -/
def total_value_locked (p : LiquidityPool) (price_feed : PriceFeed) : ℚ :=
  p.reserve p.token_x * price_feed p.token_x + p.reserve p.token_y * price_feed p.token_y

/-- other_token (pool.py lines 72-73). -/
def other_token (p : LiquidityPool) (token : Token) : Token :=
  if token = p.token_y then p.token_x else p.token_y

/-- get_amount_out (pool.py lines 75-82): constant-product quote with the
fee applied to the input leg. -/
def get_amount_out (p : LiquidityPool) (token_in : Token) (amount_in : ℚ) : ℚ :=
  let amount_in_with_fee := amount_in * (1 - p.fee)
  let reserve_in := p.reserve token_in
  let reserve_out := p.reserve (p.other_token token_in)
  amount_in_with_fee * reserve_out / (reserve_in + amount_in_with_fee)

/-- add_liquidity (pool.py lines 84-96): reserve-only adjustment. -/
def add_liquidity (p : LiquidityPool) (token : Token) (amount : ℚ) : LiquidityPool :=
  { p with reserve := Function.update p.reserve token (p.reserve token + amount) }

/-- remove_liquidity (pool.py lines 101-102). -/
def remove_liquidity (p : LiquidityPool) (token : Token) (amount : ℚ) : LiquidityPool :=
  { p with reserve := Function.update p.reserve token (p.reserve token - amount) }

/-- swap (pool.py lines 104-123): quote via get_amount_out, credit
token_in, debit the other token, return the updated pool and amount out. -/
def swap (p : LiquidityPool) (token_in : Token) (amount_in : ℚ) : LiquidityPool × ℚ :=
  let amount_out := p.get_amount_out token_in amount_in
  let r1 := Function.update p.reserve token_in (p.reserve token_in + amount_in)
  let r2 := Function.update r1 (p.other_token token_in)
    (r1 (p.other_token token_in) - amount_out)
  ({ p with reserve := r2 }, amount_out)

end LiquidityPool

/-- Direction test of compute_profit_maximizing_trade
(src/simulation/strategy.py line 121). -/
def cpmt_dir (true_price_token_a true_price_token_b reserve_a reserve_b : ℚ) : Bool :=
  decide ((reserve_a * true_price_token_a) / reserve_b < true_price_token_b)

/-- Argument of the square root in strategy.py lines 125-129:
invariant * price_out / (price_in * (1 - fee)), where the out/in prices are
selected by the direction test. -/
def cpmt_sqrt_arg (pa pb ra rb fee : ℚ) : ℚ :=
  ra * rb * (if cpmt_dir pa pb ra rb then pb else pa)
    / ((if cpmt_dir pa pb ra rb then pa else pb) * (1 - fee))

/-- left_side of strategy.py lines 125-129, with `s` standing for math.sqrt. -/
def cpmt_left (s : ℚ → ℚ) (pa pb ra rb fee : ℚ) : ℚ := s (cpmt_sqrt_arg pa pb ra rb fee)

/-- right_side of strategy.py line 130. -/
def cpmt_right (pa pb ra rb fee : ℚ) : ℚ :=
  (if cpmt_dir pa pb ra rb then ra else rb) / (1 - fee)

/-- compute_profit_maximizing_trade (strategy.py lines 103-138).  The pool
argument is consumed only through reserve_x, reserve_y and fee, which are
taken explicitly here so that the single routine serves every embedded pool
variant, exactly as strategy.py shares it across pool classes. -/
def compute_profit_maximizing_trade (s : ℚ → ℚ) (pa pb ra rb fee : ℚ) : Bool × ℚ :=
  if cpmt_left s pa pb ra rb fee < cpmt_right pa pb ra rb fee then (false, 0)
  else (cpmt_dir pa pb ra rb, cpmt_left s pa pb ra rb fee - cpmt_right pa pb ra rb fee)

/-- compute_profit_maximizing_trade applied to a LiquidityPool, as at its
call sites: reserve_a, reserve_b = pool.reserve_x, pool.reserve_y and
fee = pool.fee (strategy.py lines 118-119). -/
def LiquidityPool.profit_maximizing_trade (s : ℚ → ℚ) (pa pb : ℚ)
    (p : LiquidityPool) : Bool × ℚ :=
  compute_profit_maximizing_trade s pa pb p.reserve_x p.reserve_y p.fee

/-- DiamondPool dataclass from src/simulation/pool.py (lines 126-150): a
LiquidityPool plus beta, dynamic_beta and a Vault.  The optional
before_swap/after_swap callables are not modelled: they are opaque to every
embedded operation.  The two counter fields `collected_fees_arbitrage` and
`volume_arbitrage` are Modelled from the spec: pool.py's snapshot does not
declare them although src/simulation/diamond_protocol.py accumulates into
them with `+=`; the spec's data model lists them among the pool's
cumulative counters, and the `+=` accumulation fixes them as running
scalar totals here. -/
structure DiamondPool extends LiquidityPool where
  beta : ℚ
  dynamic_beta : Bool
  vault : Vault
  collected_fees_arbitrage : ℚ
  volume_arbitrage : ℚ

/-- DiamondPool.total_value_locked override (pool.py lines 152-160): pool
reserves plus vault reserves, valued at the price feed. -/
def DiamondPool.total_value_locked (p : DiamondPool) (price_feed : PriceFeed) : ℚ :=
  (p.reserve p.token_x + p.vault.reserve p.token_x) * price_feed p.token_x
    + (p.reserve p.token_y + p.vault.reserve p.token_y) * price_feed p.token_y

/-- target_price of core_protocol (diamond_protocol.py line 21). -/
def core_target_price (pool : DiamondPool) (price_feed : PriceFeed) : ℚ :=
  price_feed pool.token_x / price_feed pool.token_y

/-- The profit-maximizing trade solved inside core_protocol
(diamond_protocol.py lines 25-27). -/
def core_trade (s : ℚ → ℚ) (pool : DiamondPool) (price_feed : PriceFeed) : Bool × ℚ :=
  compute_profit_maximizing_trade s (price_feed pool.token_x) (price_feed pool.token_y)
    pool.toLiquidityPool.reserve_x pool.toLiquidityPool.reserve_y pool.fee

/-- delta_x of core_protocol (diamond_protocol.py lines 29-36). -/
def core_delta_x (s : ℚ → ℚ) (pool : DiamondPool) (price_feed : PriceFeed) : ℚ :=
  if (core_trade s pool price_feed).1 then (core_trade s pool price_feed).2
  else -(pool.toLiquidityPool.get_amount_out pool.token_y (core_trade s pool price_feed).2)

/-- delta_y of core_protocol (diamond_protocol.py lines 29-36). -/
def core_delta_y (s : ℚ → ℚ) (pool : DiamondPool) (price_feed : PriceFeed) : ℚ :=
  if (core_trade s pool price_feed).1 then
    -(pool.toLiquidityPool.get_amount_out pool.token_x (core_trade s pool price_feed).2)
  else (core_trade s pool price_feed).2

/-- swap_fee of core_protocol (diamond_protocol.py lines 32 and 36). -/
def core_swap_fee (s : ℚ → ℚ) (pool : DiamondPool) (price_feed : PriceFeed) : ℚ :=
  if (core_trade s pool price_feed).1 then
    (core_trade s pool price_feed).2 * price_feed pool.token_x * pool.fee
  else (core_trade s pool price_feed).2 * price_feed pool.token_y * pool.fee

/-- lp_loss_vs_cex of core_protocol (diamond_protocol.py lines 41-45). -/
def core_lp_loss (s : ℚ → ℚ) (pool : DiamondPool) (price_feed : PriceFeed) : ℚ :=
  -1 * (1 - pool.beta)
      * (core_delta_x s pool price_feed * price_feed pool.token_x
        + core_delta_y s pool price_feed * price_feed pool.token_y)
    + core_swap_fee s pool price_feed

/-- arbitrageur_profit of core_protocol (diamond_protocol.py lines 22 and
46): lp_loss_vs_cex - swap_fee - tx_fee with tx_fee = tx_fee_per_eth *
target_price. -/
def core_profit (s : ℚ → ℚ) (pool : DiamondPool) (price_feed : PriceFeed)
    (tx_fee_per_eth : ℚ) : ℚ :=
  core_lp_loss s pool price_feed - core_swap_fee s pool price_feed
    - tx_fee_per_eth * core_target_price pool price_feed

/-- core_protocol (diamond_protocol.py lines 8-69).  The mutations of the
profitable branch are replayed in statement order: vault credit of the
beta share, (1-beta) credit on the input-side reserve (line 53 reads the
not-yet-updated reserve, line 55 reads the just-updated one), re-peg of
the output-side reserve to target_price, residual excess into the vault,
then the accumulations into volume_arbitrage, lvr and
collected_fees_arbitrage. -/
def core_protocol (s : ℚ → ℚ) (pool : DiamondPool) (price_feed : PriceFeed)
    (tx_fee_per_eth : ℚ) : DiamondPool :=
  if 0 < core_profit s pool price_feed tx_fee_per_eth then
    if (core_trade s pool price_feed).1 then
      let v1 := Function.update pool.vault.reserve pool.token_y
        (pool.vault.reserve pool.token_y + |core_delta_y s pool price_feed| * pool.beta)
      let r1 := Function.update pool.reserve pool.token_x
        (pool.reserve pool.token_x + core_delta_x s pool price_feed * (1 - pool.beta))
      let r2 := Function.update r1 pool.token_y
        (r1 pool.token_x * core_target_price pool price_feed)
      let v2 := Function.update v1 pool.token_y
        (v1 pool.token_y
          + ((pool.toLiquidityPool.reserve_y + core_delta_y s pool price_feed) - r2 pool.token_y))
      { pool with
        reserve := r2,
        vault := { pool.vault with reserve := v2 },
        volume_arbitrage := pool.volume_arbitrage
          + |core_delta_y s pool price_feed| * price_feed pool.token_y,
        lvr := pool.lvr + core_lp_loss s pool price_feed,
        collected_fees_arbitrage := pool.collected_fees_arbitrage
          + core_swap_fee s pool price_feed }
    else
      let v1 := Function.update pool.vault.reserve pool.token_x
        (pool.vault.reserve pool.token_x + |core_delta_x s pool price_feed| * pool.beta)
      let r1 := Function.update pool.reserve pool.token_y
        (pool.reserve pool.token_y + core_delta_y s pool price_feed * (1 - pool.beta))
      let r2 := Function.update r1 pool.token_x
        (r1 pool.token_y / core_target_price pool price_feed)
      let v2 := Function.update v1 pool.token_x
        (v1 pool.token_x
          + ((pool.toLiquidityPool.reserve_x + core_delta_x s pool price_feed) - r2 pool.token_x))
      { pool with
        reserve := r2,
        vault := { pool.vault with reserve := v2 },
        volume_arbitrage := pool.volume_arbitrage
          + |core_delta_x s pool price_feed| * price_feed pool.token_x,
        lvr := pool.lvr + core_lp_loss s pool price_feed,
        collected_fees_arbitrage := pool.collected_fees_arbitrage
          + core_swap_fee s pool price_feed }
  else pool

/-- vault_rebalancing (diamond_protocol.py lines 72-100): move tokens from
the vault into the pool so that the pool's ratio tracks target_price,
debiting the vault by the moved amounts. -/
def vault_rebalancing (pool : DiamondPool) (price_feed : PriceFeed) : DiamondPool :=
  let target_price := price_feed pool.token_x / price_feed pool.token_y
  if pool.vault.reserve_y < pool.vault.reserve_x * target_price then
    let adjust_x := pool.vault.reserve_y / target_price
    let p1 := pool.toLiquidityPool.add_liquidity pool.token_y pool.vault.reserve_y
    let p2 := p1.add_liquidity pool.token_x adjust_x
    let v1 := Function.update pool.vault.reserve pool.token_y
      (pool.vault.reserve pool.token_y - pool.vault.reserve_y)
    let v2 := Function.update v1 pool.token_x (v1 pool.token_x - adjust_x)
    { pool with toLiquidityPool := p2, vault := { pool.vault with reserve := v2 } }
  else if pool.vault.reserve_x < pool.vault.reserve_y / target_price then
    let adjust_y := pool.vault.reserve_x * target_price
    let p1 := pool.toLiquidityPool.add_liquidity pool.token_x pool.vault.reserve_x
    let p2 := p1.add_liquidity pool.token_y adjust_y
    let v1 := Function.update pool.vault.reserve pool.token_x
      (pool.vault.reserve pool.token_x - pool.vault.reserve_x)
    let v2 := Function.update v1 pool.token_y (v1 pool.token_y - adjust_y)
    { pool with toLiquidityPool := p2, vault := { pool.vault with reserve := v2 } }
  else pool

/-- vault_conversion (diamond_protocol.py lines 103-128): when the vault
holds exactly one of the two tokens, convert half of it at target_price and
add both halves to the pool, zeroing that vault balance. -/
def vault_conversion (pool : DiamondPool) (price_feed : PriceFeed) : DiamondPool :=
  let target_price := price_feed pool.token_x / price_feed pool.token_y
  if pool.vault.reserve_x = 0 ∧ pool.vault.reserve_y ≠ 0 then
    let half_vault_reserve_y := pool.vault.reserve_y / 2
    let p1 := pool.toLiquidityPool.add_liquidity pool.token_x
      (half_vault_reserve_y / target_price)
    let p2 := p1.add_liquidity pool.token_y half_vault_reserve_y
    let v1 := Function.update pool.vault.reserve pool.token_y
      (pool.vault.reserve pool.token_y - pool.vault.reserve_y)
    { pool with toLiquidityPool := p2, vault := { pool.vault with reserve := v1 } }
  else if pool.vault.reserve_y = 0 ∧ pool.vault.reserve_x ≠ 0 then
    let half_vault_reserve_x := pool.vault.reserve_x / 2
    let p1 := pool.toLiquidityPool.add_liquidity pool.token_y
      (half_vault_reserve_x * target_price)
    let p2 := p1.add_liquidity pool.token_x half_vault_reserve_x
    let v1 := Function.update pool.vault.reserve pool.token_x
      (pool.vault.reserve pool.token_x - pool.vault.reserve_x)
    { pool with toLiquidityPool := p2, vault := { pool.vault with reserve := v1 } }
  else pool

/-- Modelled from the spec: the pool record with the five cumulative
counters kept as ordered sequences of floats, one entry appended per
qualifying event (spec section 3, Pool).  What is missing from src is the
pool-class revision declaring these sequence fields:
src/simulation/pool.py's snapshot declares scalar `lvr`/`collected_fees`
instead, while src/simulation/strategy.py (perform_arbitrage,
multi_pool_random_swap) and src/simulation/simulator.py (current_snapshot)
require exactly the sequence fields below.  Tokens, reserves and fee are as
in pool.py. -/
structure PoolSeq where
  token_x : Token
  token_y : Token
  reserve : Token → ℚ
  fee : ℚ
  lvr : List ℚ
  collected_fees_retail : List ℚ
  collected_fees_arbitrage : List ℚ
  volume_retail : List ℚ
  volume_arbitrage : List ℚ

namespace PoolSeq

/-- reserve_x property, as on LiquidityPool (pool.py lines 50-52). -/
def reserve_x (p : PoolSeq) : ℚ := p.reserve p.token_x

/-- reserve_y property, as on LiquidityPool (pool.py lines 54-56). -/
def reserve_y (p : PoolSeq) : ℚ := p.reserve p.token_y

/-- other_token, as on LiquidityPool (pool.py lines 72-73). -/
def other_token (p : PoolSeq) (token : Token) : Token :=
  if token = p.token_y then p.token_x else p.token_y

/-- get_amount_out, as on LiquidityPool (pool.py lines 75-82). -/
def get_amount_out (p : PoolSeq) (token_in : Token) (amount_in : ℚ) : ℚ :=
  let amount_in_with_fee := amount_in * (1 - p.fee)
  let reserve_in := p.reserve token_in
  let reserve_out := p.reserve (p.other_token token_in)
  amount_in_with_fee * reserve_out / (reserve_in + amount_in_with_fee)

/-- swap, as on LiquidityPool (pool.py lines 104-123). -/
def swap (p : PoolSeq) (token_in : Token) (amount_in : ℚ) : PoolSeq × ℚ :=
  let amount_out := p.get_amount_out token_in amount_in
  let r1 := Function.update p.reserve token_in (p.reserve token_in + amount_in)
  let r2 := Function.update r1 (p.other_token token_in)
    (r1 (p.other_token token_in) - amount_out)
  ({ p with reserve := r2 }, amount_out)

/-- compute_profit_maximizing_trade applied to this pool variant
(strategy.py lines 118-119). -/
def profit_maximizing_trade (s : ℚ → ℚ) (pa pb : ℚ) (p : PoolSeq) : Bool × ℚ :=
  compute_profit_maximizing_trade s pa pb p.reserve_x p.reserve_y p.fee

end PoolSeq

/-- The arbitrageur_profit value computed inside the taken branch of
perform_arbitrage (strategy.py lines 166-184): lp_loss_vs_cex - swap_fee -
tx_fee, with the x-branch or y-branch formulas selected by the direction of
the profit-maximizing trade. -/
def perform_arbitrage_profit (s : ℚ → ℚ) (pool : PoolSeq) (price_feed : PriceFeed)
    (tx_fee_per_eth : ℚ) : ℚ :=
  let target_price := price_feed pool.token_x / price_feed pool.token_y
  let tx_fee := tx_fee_per_eth * target_price
  let t := pool.profit_maximizing_trade s (price_feed pool.token_x) (price_feed pool.token_y)
  if t.1 then
    let swap_fee := t.2 * price_feed pool.token_x * pool.fee
    let lp_loss_vs_cex := pool.get_amount_out pool.token_x t.2 * price_feed pool.token_y
      - t.2 * price_feed pool.token_x + swap_fee
    lp_loss_vs_cex - swap_fee - tx_fee
  else
    let swap_fee := t.2 * price_feed pool.token_y * pool.fee
    let lp_loss_vs_cex := pool.get_amount_out pool.token_y t.2 * price_feed pool.token_x
      - t.2 * price_feed pool.token_y + swap_fee
    lp_loss_vs_cex - swap_fee - tx_fee

/-- perform_arbitrage (strategy.py lines 141-189): compute the trade, gate
on arbitrageur_profit > 0, execute the literal swap and append to the
lvr / collected_fees_arbitrage / volume_arbitrage sequences. -/
def perform_arbitrage (s : ℚ → ℚ) (pool : PoolSeq) (price_feed : PriceFeed)
    (tx_fee_per_eth : ℚ) : PoolSeq :=
  let target_price := price_feed pool.token_x / price_feed pool.token_y
  let tx_fee := tx_fee_per_eth * target_price
  let t := pool.profit_maximizing_trade s (price_feed pool.token_x) (price_feed pool.token_y)
  if t.1 then
    let swap_fee := t.2 * price_feed pool.token_x * pool.fee
    let lp_loss_vs_cex := pool.get_amount_out pool.token_x t.2 * price_feed pool.token_y
      - t.2 * price_feed pool.token_x + swap_fee
    if 0 < lp_loss_vs_cex - swap_fee - tx_fee then
      let p1 := (pool.swap pool.token_x t.2).1
      { p1 with
        lvr := p1.lvr ++ [lp_loss_vs_cex],
        collected_fees_arbitrage := p1.collected_fees_arbitrage ++ [swap_fee],
        volume_arbitrage := p1.volume_arbitrage ++ [t.2 * price_feed pool.token_x] }
    else pool
  else
    let swap_fee := t.2 * price_feed pool.token_y * pool.fee
    let lp_loss_vs_cex := pool.get_amount_out pool.token_y t.2 * price_feed pool.token_x
      - t.2 * price_feed pool.token_y + swap_fee
    if 0 < lp_loss_vs_cex - swap_fee - tx_fee then
      let p1 := (pool.swap pool.token_y t.2).1
      { p1 with
        lvr := p1.lvr ++ [lp_loss_vs_cex],
        collected_fees_arbitrage := p1.collected_fees_arbitrage ++ [swap_fee],
        volume_arbitrage := p1.volume_arbitrage ++ [t.2 * price_feed pool.token_y] }
    else pool

/-- INITIAL_MIN_FEES constant (src/simulation/dynamic_fee.py line 5). -/
def INITIAL_MIN_FEES : ℚ := 0.01 / 100

/-- ALPHA1 constant (dynamic_fee.py line 6). -/
def ALPHA1 : ℚ := 3000 / 1000000

/-- ALPHA2 constant (dynamic_fee.py line 7). -/
def ALPHA2 : ℚ := (15000 - 3000) / 1000000

/-- BETA1 constant (dynamic_fee.py line 8). -/
def BETA1 : ℚ := 360

/-- BETA2 constant (dynamic_fee.py line 9). -/
def BETA2 : ℚ := 60000

/-- GAMMA1 constant (dynamic_fee.py line 10). -/
def GAMMA1 : ℚ := 1 / 59

/-- GAMMA2 constant (dynamic_fee.py line 11). -/
def GAMMA2 : ℚ := 1 / 8500

/-- custom_sigmoid (dynamic_fee.py lines 68-72), with `E` standing for
math.exp: the exponent is clamped at 700 to avoid overflow. -/
def custom_sigmoid (E : ℚ → ℚ) (x alpha gamma beta : ℚ) : ℚ :=
  if 700 < gamma * (beta - x) then alpha / (1 + E 700)
  else alpha / (1 + E (gamma * (beta - x)))

/-- calculate_dynamic_beta (dynamic_fee.py lines 106-137): the sum of two
sigmoids plus a floor, clamped from above at 0.99. -/
def calculate_dynamic_beta (E : ℚ → ℚ)
    (volatility initial_min_beta alpha1 alpha2 beta1 beta2 gamma1 gamma2 : ℚ) : ℚ :=
  min (initial_min_beta
    + (custom_sigmoid E volatility alpha1 gamma1 beta1
      + custom_sigmoid E volatility alpha2 gamma2 beta2)) 0.99

/-- time_weighted_moving_average (dynamic_fee.py lines 16-32): the seeded
window mean followed by the incremental loop
`twma.append(twma[i] + (prices[i + window] - prices[i]) / window)` for
i in range(len(prices) - window - 1), rendered as a scan. -/
def time_weighted_moving_average (prices : List ℚ) (window : ℕ) : List ℚ :=
  List.scanl
    (fun acc i => acc + (prices.getD (i + window) 0 - prices.getD i 0) / (window : ℚ))
    ((prices.take window).sum / (window : ℚ))
    (List.range (prices.length - window - 1))

/-! Helper lemmas shared by the claim theorems. -/

/-- With two distinct tokens drawn from the two-element token type, any
token is one of the pool's pair. -/
lemma token_eq_of_ne (tx ty t : Token) (h : tx ≠ ty) : t = tx ∨ t = ty := by
  cases tx <;> cases ty <;> cases t <;> simp_all

/-- A zero-size quote returns zero. -/
lemma get_amount_out_zero (p : LiquidityPool) (t : Token) : p.get_amount_out t 0 = 0 := by
  simp [LiquidityPool.get_amount_out]

/-- Closed form of the quote when the input token is token_x. -/
lemma get_amount_out_x (p : LiquidityPool) (hne : p.token_x ≠ p.token_y) (a : ℚ) :
    p.get_amount_out p.token_x a
      = a * (1 - p.fee) * p.reserve_y / (p.reserve_x + a * (1 - p.fee)) := by
  simp [LiquidityPool.get_amount_out, LiquidityPool.other_token, if_neg hne,
    LiquidityPool.reserve_x, LiquidityPool.reserve_y]

/-- Closed form of the quote when the input token is token_y. -/
lemma get_amount_out_y (p : LiquidityPool) (a : ℚ) :
    p.get_amount_out p.token_y a
      = a * (1 - p.fee) * p.reserve_x / (p.reserve_y + a * (1 - p.fee)) := by
  simp [LiquidityPool.get_amount_out, LiquidityPool.other_token,
    LiquidityPool.reserve_x, LiquidityPool.reserve_y]

/-- The companion token of token_x is token_y. -/
lemma other_token_x (p : LiquidityPool) (hne : p.token_x ≠ p.token_y) :
    p.other_token p.token_x = p.token_y := by
  rw [LiquidityPool.other_token, if_neg hne]

/-- The companion token of token_y is token_x. -/
lemma other_token_y (p : LiquidityPool) : p.other_token p.token_y = p.token_x := by
  rw [LiquidityPool.other_token, if_pos rfl]

/-- Reserves after swapping token_x in. -/
lemma swap_x_reserves (p : LiquidityPool) (hne : p.token_x ≠ p.token_y) (a : ℚ) :
    (p.swap p.token_x a).1.reserve_x = p.reserve_x + a
    ∧ (p.swap p.token_x a).1.reserve_y = p.reserve_y - p.get_amount_out p.token_x a := by
  constructor
  · simp only [LiquidityPool.swap, LiquidityPool.reserve_x, LiquidityPool.reserve_y,
      other_token_x p hne]
    rw [Function.update_noteq hne, Function.update_same]
  · simp only [LiquidityPool.swap, LiquidityPool.reserve_x, LiquidityPool.reserve_y,
      other_token_x p hne]
    rw [Function.update_same, other_token_x p hne, Function.update_noteq (Ne.symm hne)]

/-- Reserves after swapping token_y in. -/
lemma swap_y_reserves (p : LiquidityPool) (hne : p.token_x ≠ p.token_y) (a : ℚ) :
    (p.swap p.token_y a).1.reserve_x = p.reserve_x - p.get_amount_out p.token_y a
    ∧ (p.swap p.token_y a).1.reserve_y = p.reserve_y + a := by
  constructor
  · simp only [LiquidityPool.swap, LiquidityPool.reserve_x, LiquidityPool.reserve_y,
      other_token_y p]
    rw [Function.update_same, other_token_y p, Function.update_noteq hne]
  · simp only [LiquidityPool.swap, LiquidityPool.reserve_x, LiquidityPool.reserve_y,
      other_token_y p]
    rw [Function.update_noteq (Ne.symm hne), Function.update_same]

/-- Algebraic core of the constant-product invariant across a swap: the
change of the product when `a` enters against reserves `rin`/`rout` at fee
`f`. -/
lemma swap_product_key (rin rout a f : ℚ) (hin : 0 < rin) (hout : 0 < rout)
    (hf0 : 0 ≤ f) (hf1 : f < 1) (ha : 0 < a) :
    (rin + a) * (rout - a * (1 - f) * rout / (rin + a * (1 - f))) - rin * rout
      = rin * rout * (a * f) / (rin + a * (1 - f)) := by
  have hD : 0 < rin + a * (1 - f) := by nlinarith
  field_simp
  ring

/-- Sign information for the product change across a swap. -/
lemma swap_product_bounds (rin rout a f : ℚ) (hin : 0 < rin) (hout : 0 < rout)
    (hf0 : 0 ≤ f) (hf1 : f < 1) (ha : 0 < a) :
    rin * rout ≤ (rin + a) * (rout - a * (1 - f) * rout / (rin + a * (1 - f)))
    ∧ (0 < f →
        rin * rout < (rin + a) * (rout - a * (1 - f) * rout / (rin + a * (1 - f))))
    ∧ (f = 0 →
        (rin + a) * (rout - a * (1 - f) * rout / (rin + a * (1 - f))) = rin * rout) := by
  have hD : 0 < rin + a * (1 - f) := by nlinarith
  have hkey := swap_product_key rin rout a f hin hout hf0 hf1 ha
  refine ⟨?_, ?_, ?_⟩
  · have h1 : 0 ≤ rin * rout * (a * f) :=
      mul_nonneg (mul_nonneg hin.le hout.le) (mul_nonneg ha.le hf0)
    nlinarith [div_nonneg h1 hD.le]
  · intro hf
    have h1 : 0 < rin * rout * (a * f) :=
      mul_pos (mul_pos hin hout) (mul_pos ha hf)
    nlinarith [div_pos h1 hD]
  · intro hf
    subst hf
    have h0 : rin * rout * (a * 0) / (rin + a * (1 - 0)) = 0 := by
      rw [mul_zero, mul_zero, zero_div]
    rw [h0] at hkey
    linarith

/-- C3: for every pool with strictly positive reserves, fee in [0,1) and
amount_in > 0, swapping either token does not decrease the reserve product:
the product strictly increases when the fee is positive and is preserved
exactly when the fee is zero. -/
theorem swap_preserves_or_grows_invariant (p : LiquidityPool) (token_in : Token)
    (amount_in : ℚ) (hne : p.token_x ≠ p.token_y)
    (hx : 0 < p.reserve_x) (hy : 0 < p.reserve_y)
    (hf0 : 0 ≤ p.fee) (hf1 : p.fee < 1) (ha : 0 < amount_in) :
    p.reserve_x * p.reserve_y
      ≤ (p.swap token_in amount_in).1.reserve_x * (p.swap token_in amount_in).1.reserve_y
    ∧ (0 < p.fee →
        p.reserve_x * p.reserve_y
          < (p.swap token_in amount_in).1.reserve_x * (p.swap token_in amount_in).1.reserve_y)
    ∧ (p.fee = 0 →
        (p.swap token_in amount_in).1.reserve_x * (p.swap token_in amount_in).1.reserve_y
          = p.reserve_x * p.reserve_y) := by
  rcases token_eq_of_ne p.token_x p.token_y token_in hne with h | h
  · subst h
    obtain ⟨e1, e2⟩ := swap_x_reserves p hne amount_in
    rw [e1, e2, get_amount_out_x p hne]
    obtain ⟨b1, b2, b3⟩ :=
      swap_product_bounds p.reserve_x p.reserve_y amount_in p.fee hx hy hf0 hf1 ha
    exact ⟨b1, b2, b3⟩
  · subst h
    obtain ⟨e1, e2⟩ := swap_y_reserves p hne amount_in
    rw [e1, e2, get_amount_out_y p]
    obtain ⟨b1, b2, b3⟩ :=
      swap_product_bounds p.reserve_y p.reserve_x amount_in p.fee hy hx hf0 hf1 ha
    constructor
    · calc p.reserve_x * p.reserve_y = p.reserve_y * p.reserve_x := by ring
        _ ≤ _ := by nlinarith [b1]
    constructor
    · intro hf
      nlinarith [b2 hf]
    · intro hf
      nlinarith [b3 hf]

/-- A concrete pool with reserves 1000/1000 and fee 3/1000, used to
instantiate hypotheses at a checkable point. -/
def samplePool : LiquidityPool :=
  { token_x := .ETH, token_y := .USDC, reserve := fun _ => 1000,
    fee := 3 / 1000, dynamic_fee := false, lvr := 0, collected_fees := 0 }

/-- C3 witness: the theorem instantiated at `samplePool`, swapping 10 of
token_x in, with every hypothesis discharged by computation. -/
theorem swap_preserves_or_grows_invariant_witness :
    samplePool.token_x ≠ samplePool.token_y ∧ 0 < samplePool.reserve_x
      ∧ 0 < samplePool.reserve_y ∧ 0 ≤ samplePool.fee ∧ samplePool.fee < 1
      ∧ (0:ℚ) < 10
      ∧ (0 < samplePool.fee →
          samplePool.reserve_x * samplePool.reserve_y
            < (samplePool.swap samplePool.token_x 10).1.reserve_x
              * (samplePool.swap samplePool.token_x 10).1.reserve_y) :=
  ⟨by simp [samplePool], by norm_num [samplePool, LiquidityPool.reserve_x],
    by norm_num [samplePool, LiquidityPool.reserve_y], by norm_num [samplePool],
    by norm_num [samplePool], by norm_num,
    (swap_preserves_or_grows_invariant samplePool samplePool.token_x 10
      (by simp [samplePool]) (by norm_num [samplePool, LiquidityPool.reserve_x])
      (by norm_num [samplePool, LiquidityPool.reserve_y]) (by norm_num [samplePool])
      (by norm_num [samplePool]) (by norm_num)).2.1⟩

/-- C8 counterexample: time_weighted_moving_average on twenty 1.0 entries
with window 5 does not return a 14-entry sequence (the loop runs
len - window - 1 = 14 times on top of the seeded first entry, so the result
has 15 entries); the claimed conjunction is false. -/
theorem twma_constant_claim_false :
    ¬ ((∀ q ∈ time_weighted_moving_average (List.replicate 20 (1:ℚ)) 5, q = 1)
      ∧ (time_weighted_moving_average (List.replicate 20 (1:ℚ)) 5).length = 14) := by
  intro h
  have := h.2
  simp [time_weighted_moving_average] at this

/-- A scan whose step fixes the seed stays at the seed. -/
lemma scanl_fixed {α : Type} (f : ℚ → α → ℚ) (b : ℚ) (l : List α)
    (hf : ∀ x ∈ l, f b x = b) : ∀ q ∈ List.scanl f b l, q = b := by
  induction l with
  | nil => intro q hq; simpa [List.scanl] using hq
  | cons x xs ih =>
      intro q hq
      rw [List.scanl, hf x (by simp)] at hq
      rcases List.mem_cons.1 hq with h | h
      · exact h
      · exact ih (fun y hy => hf y (by simp [hy])) q h

/-- Every entry of the constant list is read back as 1. -/
lemma replicate_getD_one (i : ℕ) (hi : i < 20) :
    (List.replicate 20 (1:ℚ)).getD i 0 = 1 := by
  rw [List.getD_eq_getElem?_getD, List.getElem?_replicate, if_pos hi]
  rfl

/-- C8 (amended): time_weighted_moving_average on twenty 1.0 entries with
window 5 returns a sequence in which every entry equals 1.0 and whose
length is 15 (= 20 - 5). -/
theorem twma_constant_sequence :
    (∀ q ∈ time_weighted_moving_average (List.replicate 20 (1:ℚ)) 5, q = 1)
    ∧ (time_weighted_moving_average (List.replicate 20 (1:ℚ)) 5).length = 15 := by
  have hseed : ((List.replicate 20 (1:ℚ)).take 5).sum / (5:ℕ) = 1 := by
    rw [List.take_replicate, List.sum_replicate]
    norm_num
  constructor
  · intro q hq
    rw [time_weighted_moving_average, List.length_replicate, hseed] at hq
    refine scanl_fixed _ 1 _ ?_ q hq
    intro i hi
    have hi14 : i < 14 := by simpa using List.mem_range.1 hi
    rw [replicate_getD_one (i + 5) (by omega), replicate_getD_one i (by omega)]
    norm_num
  · simp [time_weighted_moving_average]

/-- The scenario pool of the spec: two tokens, reserves seeded 1000/1000,
fee 0. -/
def equalPricePool : LiquidityPool :=
  { token_x := .ETH, token_y := .USDC, reserve := fun _ => 1000,
    fee := 0, dynamic_fee := false, lvr := 0, collected_fees := 0 }

/-- C4: compute_profit_maximizing_trade returns (False, 0) whenever
left_side < right_side and otherwise returns the direction test together
with amount_in = left_side - right_side; and on the scenario pool with
reserves 1000/1000, fee 0 and both true prices 1 the returned amount_in is
0 (assuming the square root is exact at the evaluated argument 1000000). -/
theorem profit_maximizing_trade_spec (s : ℚ → ℚ) (pa pb : ℚ) (p : LiquidityPool)
    (hs0 : 0 ≤ s 1000000) (hs2 : s 1000000 ^ 2 = 1000000) :
    (cpmt_left s pa pb p.reserve_x p.reserve_y p.fee
        < cpmt_right pa pb p.reserve_x p.reserve_y p.fee →
      p.profit_maximizing_trade s pa pb = (false, 0))
    ∧ (¬ cpmt_left s pa pb p.reserve_x p.reserve_y p.fee
          < cpmt_right pa pb p.reserve_x p.reserve_y p.fee →
      p.profit_maximizing_trade s pa pb
        = (cpmt_dir pa pb p.reserve_x p.reserve_y,
          cpmt_left s pa pb p.reserve_x p.reserve_y p.fee
            - cpmt_right pa pb p.reserve_x p.reserve_y p.fee))
    ∧ (equalPricePool.profit_maximizing_trade s 1 1).2 = 0 := by
  have hs : s 1000000 = 1000 := by
    have hfac : (s 1000000 - 1000) * (s 1000000 + 1000) = 0 := by
      linear_combination hs2
    rcases mul_eq_zero.1 hfac with h | h
    · linarith
    · linarith
  refine ⟨?_, ?_, ?_⟩
  · intro h
    rw [LiquidityPool.profit_maximizing_trade, compute_profit_maximizing_trade, if_pos h]
  · intro h
    rw [LiquidityPool.profit_maximizing_trade, compute_profit_maximizing_trade, if_neg h]
  · have hrx : equalPricePool.reserve_x = 1000 := rfl
    have hry : equalPricePool.reserve_y = 1000 := rfl
    have hfee : equalPricePool.fee = 0 := rfl
    have hdir : cpmt_dir 1 1 (1000:ℚ) 1000 = false := by
      simp only [cpmt_dir, decide_eq_false_iff_not]
      norm_num
    have harg : cpmt_sqrt_arg 1 1 (1000:ℚ) 1000 0 = 1000000 := by
      rw [cpmt_sqrt_arg, hdir]
      norm_num
    have hleft : cpmt_left s 1 1 (1000:ℚ) 1000 0 = 1000 := by
      rw [cpmt_left, harg, hs]
    have hright : cpmt_right 1 1 (1000:ℚ) 1000 0 = 1000 := by
      rw [cpmt_right, hdir]
      norm_num
    rw [LiquidityPool.profit_maximizing_trade, hrx, hry, hfee,
      compute_profit_maximizing_trade, hleft, hright, if_neg (lt_irrefl (1000:ℚ))]
    norm_num

/-- A concrete square-root stand-in that is exact at 1000000. -/
def sqrtAt1000000 : ℚ → ℚ := fun q => if q = 1000000 then 1000 else 0

/-- The clamped sigmoid is nonnegative for nonnegative alpha and positive
exponential. -/
lemma custom_sigmoid_nonneg (E : ℚ → ℚ) (hEpos : ∀ x, 0 < E x)
    (x alpha gamma beta : ℚ) (halpha : 0 ≤ alpha) :
    0 ≤ custom_sigmoid E x alpha gamma beta := by
  rw [custom_sigmoid]
  split
  · exact div_nonneg halpha (by linarith [hEpos 700])
  · exact div_nonneg halpha (by linarith [hEpos (gamma * (beta - x))])

/-- The clamped sigmoid is monotone in its input for nonnegative alpha and
gamma, given a monotone positive exponential. -/
lemma custom_sigmoid_mono (E : ℚ → ℚ) (hE : Monotone E) (hEpos : ∀ x, 0 < E x)
    (alpha gamma beta : ℚ) (halpha : 0 ≤ alpha) (hgamma : 0 ≤ gamma)
    (x y : ℚ) (hxy : x ≤ y) :
    custom_sigmoid E x alpha gamma beta ≤ custom_sigmoid E y alpha gamma beta := by
  have harg : gamma * (beta - y) ≤ gamma * (beta - x) :=
    mul_le_mul_of_nonneg_left (by linarith) hgamma
  rw [custom_sigmoid, custom_sigmoid]
  split_ifs with h1 h2 h2
  · exact le_refl _
  · have hEy : E (gamma * (beta - y)) ≤ E 700 := hE (not_lt.1 h2)
    have hb : 0 < 1 + E 700 := by linarith [hEpos 700]
    have hc : 0 < 1 + E (gamma * (beta - y)) := by linarith [hEpos (gamma * (beta - y))]
    rw [div_le_div_iff₀ hb hc]
    nlinarith
  · exact absurd h2 (not_lt.2 (le_trans harg (not_lt.1 h1)))
  · have hEy : E (gamma * (beta - y)) ≤ E (gamma * (beta - x)) := hE harg
    have hb : 0 < 1 + E (gamma * (beta - x)) := by linarith [hEpos (gamma * (beta - x))]
    have hc : 0 < 1 + E (gamma * (beta - y)) := by linarith [hEpos (gamma * (beta - y))]
    rw [div_le_div_iff₀ hb hc]
    nlinarith

/-- C7: with the standard parameter set, calculate_dynamic_beta lies in
[0, 0.99] for every volatility v ≥ 0 and is monotone non-decreasing in the
volatility, for any monotone positive stand-in for math.exp. -/
theorem calculate_dynamic_beta_bounds_mono (E : ℚ → ℚ) (hE : Monotone E)
    (hEpos : ∀ x, 0 < E x) (v w : ℚ) (hv : 0 ≤ v) (hvw : v ≤ w) :
    0 ≤ calculate_dynamic_beta E v INITIAL_MIN_FEES ALPHA1 ALPHA2 BETA1 BETA2 GAMMA1 GAMMA2
    ∧ calculate_dynamic_beta E v INITIAL_MIN_FEES ALPHA1 ALPHA2 BETA1 BETA2 GAMMA1 GAMMA2
        ≤ 0.99
    ∧ calculate_dynamic_beta E v INITIAL_MIN_FEES ALPHA1 ALPHA2 BETA1 BETA2 GAMMA1 GAMMA2
        ≤ calculate_dynamic_beta E w INITIAL_MIN_FEES ALPHA1 ALPHA2 BETA1 BETA2 GAMMA1
          GAMMA2 := by
  have ha1 : (0:ℚ) ≤ ALPHA1 := by norm_num [ALPHA1]
  have ha2 : (0:ℚ) ≤ ALPHA2 := by norm_num [ALPHA2]
  have hg1 : (0:ℚ) ≤ GAMMA1 := by norm_num [GAMMA1]
  have hg2 : (0:ℚ) ≤ GAMMA2 := by norm_num [GAMMA2]
  have hi : (0:ℚ) ≤ INITIAL_MIN_FEES := by norm_num [INITIAL_MIN_FEES]
  refine ⟨?_, ?_, ?_⟩
  · rw [calculate_dynamic_beta]
    refine le_min ?_ (by norm_num)
    have s1 := custom_sigmoid_nonneg E hEpos v ALPHA1 GAMMA1 BETA1 ha1
    have s2 := custom_sigmoid_nonneg E hEpos v ALPHA2 GAMMA2 BETA2 ha2
    linarith
  · rw [calculate_dynamic_beta]
    exact min_le_right _ _
  · rw [calculate_dynamic_beta, calculate_dynamic_beta]
    refine min_le_min (by
      have m1 := custom_sigmoid_mono E hE hEpos ALPHA1 GAMMA1 BETA1 ha1 hg1 v w hvw
      have m2 := custom_sigmoid_mono E hE hEpos ALPHA2 GAMMA2 BETA2 ha2 hg2 v w hvw
      linarith) (le_refl _)

/-- A concrete monotone positive stand-in for math.exp. -/
def expStandIn : ℚ → ℚ := fun x => max x 0 + 1

/-- The stand-in is monotone. -/
lemma expStandIn_mono : Monotone expStandIn := by
  intro a b hab
  exact add_le_add_right (max_le_max hab (le_refl _)) 1

/-- The stand-in is positive. -/
lemma expStandIn_pos : ∀ x, 0 < expStandIn x := by
  intro x
  have : (0:ℚ) ≤ max x 0 := le_max_right x 0
  rw [expStandIn]
  linarith

/-- C7 witness: the theorem instantiated at the concrete exponential
stand-in and volatilities 0 ≤ 1, with every hypothesis discharged. -/
theorem calculate_dynamic_beta_bounds_mono_witness :
    Monotone expStandIn ∧ (∀ x, 0 < expStandIn x) ∧ (0:ℚ) ≤ 0 ∧ (0:ℚ) ≤ 1
    ∧ (0 ≤ calculate_dynamic_beta expStandIn 0 INITIAL_MIN_FEES ALPHA1 ALPHA2 BETA1 BETA2
          GAMMA1 GAMMA2
      ∧ calculate_dynamic_beta expStandIn 0 INITIAL_MIN_FEES ALPHA1 ALPHA2 BETA1 BETA2
          GAMMA1 GAMMA2 ≤ 0.99
      ∧ calculate_dynamic_beta expStandIn 0 INITIAL_MIN_FEES ALPHA1 ALPHA2 BETA1 BETA2
          GAMMA1 GAMMA2
        ≤ calculate_dynamic_beta expStandIn 1 INITIAL_MIN_FEES ALPHA1 ALPHA2 BETA1 BETA2
          GAMMA1 GAMMA2) :=
  ⟨expStandIn_mono, expStandIn_pos, le_refl 0, by norm_num,
    calculate_dynamic_beta_bounds_mono expStandIn expStandIn_mono expStandIn_pos 0 1
      (le_refl 0) (by norm_num)⟩

/-- C4 witness: the theorem instantiated with a concrete square-root
function, prices 2/3 and `samplePool`, with both square-root hypotheses
discharged by computation. -/
theorem profit_maximizing_trade_spec_witness :
    0 ≤ sqrtAt1000000 1000000 ∧ sqrtAt1000000 1000000 ^ 2 = 1000000
    ∧ (equalPricePool.profit_maximizing_trade sqrtAt1000000 1 1).2 = 0 :=
  ⟨by norm_num [sqrtAt1000000], by norm_num [sqrtAt1000000],
    (profit_maximizing_trade_spec sqrtAt1000000 2 3 samplePool
      (by norm_num [sqrtAt1000000]) (by norm_num [sqrtAt1000000])).2.2⟩

/-- C2: when the computed arbitrageur_profit is not strictly positive,
core_protocol returns the DiamondPool unchanged and perform_arbitrage
returns the plain pool unchanged — reserves, vault and every cumulative
counter included, since the whole states are equal. -/
theorem arbitrage_noop_when_unprofitable (s : ℚ → ℚ) (dpool : DiamondPool) (p : PoolSeq)
    (pf pf2 : PriceFeed) (txf txf2 : ℚ)
    (h1 : core_profit s dpool pf txf ≤ 0)
    (h2 : perform_arbitrage_profit s p pf2 txf2 ≤ 0) :
    core_protocol s dpool pf txf = dpool ∧ perform_arbitrage s p pf2 txf2 = p := by
  constructor
  · unfold core_protocol
    rw [if_neg (not_lt.mpr h1)]
  · unfold perform_arbitrage
    unfold perform_arbitrage_profit at h2
    cases hb : (p.profit_maximizing_trade s (pf2 p.token_x) (pf2 p.token_y)).1
    · simp only [hb] at h2 ⊢
      simp only [Bool.false_eq_true, if_false] at h2 ⊢
      rw [if_neg (not_lt.mpr h2)]
    · simp only [hb] at h2 ⊢
      simp only [if_true] at h2 ⊢
      rw [if_neg (not_lt.mpr h2)]

/-- A diamond pool sitting exactly at the external price, so that no
arbitrage is profitable. -/
def balancedDiamondPool : DiamondPool :=
  { token_x := .ETH, token_y := .USDC, reserve := fun _ => 1000,
    fee := 0, dynamic_fee := false, lvr := 0, collected_fees := 0,
    beta := 1/2, dynamic_beta := false,
    vault := { token_x := .ETH, token_y := .USDC, reserve := fun _ => 0 },
    collected_fees_arbitrage := 0, volume_arbitrage := 0 }

/-- A plain sequence-counter pool sitting exactly at the external price. -/
def balancedPoolSeq : PoolSeq :=
  { token_x := .ETH, token_y := .USDC, reserve := fun _ => 1000,
    fee := 0, lvr := [], collected_fees_retail := [], collected_fees_arbitrage := [],
    volume_retail := [], volume_arbitrage := [] }

/-- The all-ones price feed. -/
def unitFeed : PriceFeed := fun _ => 1

/-- C2 witness: at the balanced pools with unit prices and zero tx fee the
computed profits are zero, and the theorem applies, leaving both pools
unchanged. -/
theorem arbitrage_noop_when_unprofitable_witness :
    core_profit sqrtAt1000000 balancedDiamondPool unitFeed 0 ≤ 0
    ∧ perform_arbitrage_profit sqrtAt1000000 balancedPoolSeq unitFeed 0 ≤ 0
    ∧ core_protocol sqrtAt1000000 balancedDiamondPool unitFeed 0 = balancedDiamondPool
    ∧ perform_arbitrage sqrtAt1000000 balancedPoolSeq unitFeed 0 = balancedPoolSeq := by
  have hc : core_profit sqrtAt1000000 balancedDiamondPool unitFeed 0 ≤ 0 := by
    norm_num [core_profit, core_lp_loss, core_swap_fee, core_delta_x, core_delta_y,
      core_trade, core_target_price, compute_profit_maximizing_trade, cpmt_left,
      cpmt_right, cpmt_dir, cpmt_sqrt_arg, balancedDiamondPool, unitFeed,
      LiquidityPool.reserve_x, LiquidityPool.reserve_y, LiquidityPool.get_amount_out,
      LiquidityPool.other_token, sqrtAt1000000]
  have hp : perform_arbitrage_profit sqrtAt1000000 balancedPoolSeq unitFeed 0 ≤ 0 := by
    norm_num [perform_arbitrage_profit, PoolSeq.profit_maximizing_trade,
      compute_profit_maximizing_trade, cpmt_left, cpmt_right, cpmt_dir, cpmt_sqrt_arg,
      balancedPoolSeq, unitFeed, PoolSeq.reserve_x, PoolSeq.reserve_y,
      PoolSeq.get_amount_out, PoolSeq.other_token, sqrtAt1000000]
  have h := arbitrage_noop_when_unprofitable sqrtAt1000000 balancedDiamondPool
    balancedPoolSeq unitFeed unitFeed 0 0 hc hp
  exact ⟨hc, hp, h.1, h.2⟩

/-- Post-state of core_protocol's profitable x-to-y branch, field by
field. -/
lemma core_protocol_x_state (s : ℚ → ℚ) (pool : DiamondPool) (pf : PriceFeed) (txf : ℚ)
    (hne : pool.token_x ≠ pool.token_y)
    (hp : 0 < core_profit s pool pf txf)
    (hd : (core_trade s pool pf).1 = true) :
    (core_protocol s pool pf txf).reserve pool.token_x
        = pool.reserve pool.token_x + core_delta_x s pool pf * (1 - pool.beta)
    ∧ (core_protocol s pool pf txf).reserve pool.token_y
        = (pool.reserve pool.token_x + core_delta_x s pool pf * (1 - pool.beta))
          * core_target_price pool pf
    ∧ (core_protocol s pool pf txf).vault.reserve pool.token_x
        = pool.vault.reserve pool.token_x
    ∧ (core_protocol s pool pf txf).vault.reserve pool.token_y
        = pool.vault.reserve pool.token_y + |core_delta_y s pool pf| * pool.beta
          + ((pool.toLiquidityPool.reserve_y + core_delta_y s pool pf)
            - (pool.reserve pool.token_x + core_delta_x s pool pf * (1 - pool.beta))
              * core_target_price pool pf)
    ∧ (core_protocol s pool pf txf).volume_arbitrage
        = pool.volume_arbitrage + |core_delta_y s pool pf| * pf pool.token_y
    ∧ (core_protocol s pool pf txf).lvr = pool.lvr + core_lp_loss s pool pf
    ∧ (core_protocol s pool pf txf).collected_fees_arbitrage
        = pool.collected_fees_arbitrage + core_swap_fee s pool pf := by
  unfold core_protocol
  rw [if_pos hp, hd, if_pos rfl]
  refine ⟨?_, ?_, ?_, ?_, rfl, rfl, rfl⟩
  · show Function.update _ pool.token_y _ pool.token_x = _
    rw [Function.update_noteq hne, Function.update_same]
  · show Function.update _ pool.token_y _ pool.token_y = _
    rw [Function.update_same, Function.update_same]
  · show Function.update _ pool.token_y _ pool.token_x = _
    rw [Function.update_noteq hne, Function.update_noteq hne]
  · show Function.update _ pool.token_y _ pool.token_y = _
    rw [Function.update_same, Function.update_same, Function.update_same,
      Function.update_same]

/-- Post-state of core_protocol's profitable y-to-x branch, field by
field. -/
lemma core_protocol_y_state (s : ℚ → ℚ) (pool : DiamondPool) (pf : PriceFeed) (txf : ℚ)
    (hne : pool.token_x ≠ pool.token_y)
    (hp : 0 < core_profit s pool pf txf)
    (hd : (core_trade s pool pf).1 = false) :
    (core_protocol s pool pf txf).reserve pool.token_y
        = pool.reserve pool.token_y + core_delta_y s pool pf * (1 - pool.beta)
    ∧ (core_protocol s pool pf txf).reserve pool.token_x
        = (pool.reserve pool.token_y + core_delta_y s pool pf * (1 - pool.beta))
          / core_target_price pool pf
    ∧ (core_protocol s pool pf txf).vault.reserve pool.token_y
        = pool.vault.reserve pool.token_y
    ∧ (core_protocol s pool pf txf).vault.reserve pool.token_x
        = pool.vault.reserve pool.token_x + |core_delta_x s pool pf| * pool.beta
          + ((pool.toLiquidityPool.reserve_x + core_delta_x s pool pf)
            - (pool.reserve pool.token_y + core_delta_y s pool pf * (1 - pool.beta))
              / core_target_price pool pf)
    ∧ (core_protocol s pool pf txf).volume_arbitrage
        = pool.volume_arbitrage + |core_delta_x s pool pf| * pf pool.token_x
    ∧ (core_protocol s pool pf txf).lvr = pool.lvr + core_lp_loss s pool pf
    ∧ (core_protocol s pool pf txf).collected_fees_arbitrage
        = pool.collected_fees_arbitrage + core_swap_fee s pool pf := by
  unfold core_protocol
  rw [if_pos hp, hd, if_neg Bool.false_ne_true]
  refine ⟨?_, ?_, ?_, ?_, rfl, rfl, rfl⟩
  · show Function.update _ pool.token_x _ pool.token_y = _
    rw [Function.update_noteq (Ne.symm hne), Function.update_same]
  · show Function.update _ pool.token_x _ pool.token_x = _
    rw [Function.update_same, Function.update_same]
  · show Function.update _ pool.token_x _ pool.token_y = _
    rw [Function.update_noteq (Ne.symm hne), Function.update_noteq (Ne.symm hne)]
  · show Function.update _ pool.token_x _ pool.token_x = _
    rw [Function.update_same, Function.update_same, Function.update_same,
      Function.update_same]

/-- C1: whenever core_protocol computes a strictly positive
arbitrageur_profit, the returned pool credits the vault with beta times the
traded-out amount, increases the input-side reserve by (1-beta) times the
input amount, re-pegs the output-side reserve so that it equals the other
reserve times (or divided by) target_price with the residual excess routed
into the vault, and accumulates lvr, collected_fees_arbitrage and
volume_arbitrage by lp_loss_vs_cex, swap_fee and traded-out amount times
its price. -/
theorem core_protocol_profitable_execution (s : ℚ → ℚ) (pool : DiamondPool)
    (pf : PriceFeed) (txf : ℚ)
    (hne : pool.token_x ≠ pool.token_y)
    (hrx : 0 < pool.toLiquidityPool.reserve_x) (hry : 0 < pool.toLiquidityPool.reserve_y)
    (hpx : 0 < pf pool.token_x) (hpy : 0 < pf pool.token_y)
    (hp : 0 < core_profit s pool pf txf) :
    ((core_trade s pool pf).1 = true →
      (core_protocol s pool pf txf).reserve pool.token_x
          = pool.reserve pool.token_x + core_delta_x s pool pf * (1 - pool.beta)
      ∧ (core_protocol s pool pf txf).reserve pool.token_y
          = (core_protocol s pool pf txf).reserve pool.token_x
            * core_target_price pool pf
      ∧ (core_protocol s pool pf txf).vault.reserve pool.token_y
          = pool.vault.reserve pool.token_y + |core_delta_y s pool pf| * pool.beta
            + ((pool.toLiquidityPool.reserve_y + core_delta_y s pool pf)
              - (core_protocol s pool pf txf).reserve pool.token_y)
      ∧ (core_protocol s pool pf txf).vault.reserve pool.token_x
          = pool.vault.reserve pool.token_x
      ∧ (core_protocol s pool pf txf).volume_arbitrage
          = pool.volume_arbitrage + |core_delta_y s pool pf| * pf pool.token_y)
    ∧ ((core_trade s pool pf).1 = false →
      (core_protocol s pool pf txf).reserve pool.token_y
          = pool.reserve pool.token_y + core_delta_y s pool pf * (1 - pool.beta)
      ∧ (core_protocol s pool pf txf).reserve pool.token_x
          = (core_protocol s pool pf txf).reserve pool.token_y
            / core_target_price pool pf
      ∧ (core_protocol s pool pf txf).vault.reserve pool.token_x
          = pool.vault.reserve pool.token_x + |core_delta_x s pool pf| * pool.beta
            + ((pool.toLiquidityPool.reserve_x + core_delta_x s pool pf)
              - (core_protocol s pool pf txf).reserve pool.token_x)
      ∧ (core_protocol s pool pf txf).vault.reserve pool.token_y
          = pool.vault.reserve pool.token_y
      ∧ (core_protocol s pool pf txf).volume_arbitrage
          = pool.volume_arbitrage + |core_delta_x s pool pf| * pf pool.token_x)
    ∧ (core_protocol s pool pf txf).lvr = pool.lvr + core_lp_loss s pool pf
    ∧ (core_protocol s pool pf txf).collected_fees_arbitrage
        = pool.collected_fees_arbitrage + core_swap_fee s pool pf := by
  cases htr : (core_trade s pool pf).1 with
  | true =>
      obtain ⟨e1, e2, e3, e4, e5, e6, e7⟩ := core_protocol_x_state s pool pf txf hne hp htr
      refine ⟨fun _ => ⟨e1, ?_, ?_, e3, e5⟩, fun h => ?_, e6, e7⟩
      · rw [e2, e1]
      · rw [e4, e2]
      · exact Bool.noConfusion h
  | false =>
      obtain ⟨e1, e2, e3, e4, e5, e6, e7⟩ := core_protocol_y_state s pool pf txf hne hp htr
      refine ⟨fun h => ?_, fun _ => ⟨e1, ?_, ?_, e3, e5⟩, e6, e7⟩
      · exact Bool.noConfusion h
      · rw [e2, e1]
      · rw [e4, e2]

/-- A concrete square-root stand-in that is exact at 40000. -/
def sqrtAt40000 : ℚ → ℚ := fun q => if q = 40000 then 200 else 0

/-- A diamond pool priced below the external price, so that the x-to-y
arbitrage is profitable: reserves 100/400, fee 0, beta 1/2. -/
def skewedDiamondPool : DiamondPool :=
  { token_x := .ETH, token_y := .USDC,
    reserve := fun t => if t = Token.USDC then 400 else 100,
    fee := 0, dynamic_fee := false, lvr := 0, collected_fees := 0,
    beta := 1/2, dynamic_beta := false,
    vault := { token_x := .ETH, token_y := .USDC, reserve := fun _ => 0 },
    collected_fees_arbitrage := 0, volume_arbitrage := 0 }

/-- Tokens of the skewed pool are distinct. -/
lemma skewed_ne : skewedDiamondPool.token_x ≠ skewedDiamondPool.token_y := by
  simp [skewedDiamondPool]

/-- Concrete field values of the skewed pool. -/
lemma skewed_fields :
    skewedDiamondPool.toLiquidityPool.reserve_x = 100
    ∧ skewedDiamondPool.toLiquidityPool.reserve_y = 400
    ∧ skewedDiamondPool.fee = 0
    ∧ unitFeed skewedDiamondPool.token_x = 1
    ∧ unitFeed skewedDiamondPool.token_y = 1 :=
  ⟨rfl, rfl, rfl, rfl, rfl⟩

/-- The direction test at the skewed pool points x-to-y. -/
lemma skewed_dir : cpmt_dir 1 1 (100:ℚ) 400 = true := by
  simp only [cpmt_dir, decide_eq_true_eq]
  norm_num

/-- The square-root argument at the skewed pool is 40000. -/
lemma skewed_sqrt_arg : cpmt_sqrt_arg 1 1 (100:ℚ) 400 0 = 40000 := by
  rw [cpmt_sqrt_arg, skewed_dir]
  norm_num

/-- The closed-form trade at the skewed pool is x-to-y of size 100. -/
lemma skewed_trade : core_trade sqrtAt40000 skewedDiamondPool unitFeed = (true, 100) := by
  obtain ⟨hx, hy, hf, hpx, hpy⟩ := skewed_fields
  rw [core_trade, hx, hy, hf, hpx, hpy, compute_profit_maximizing_trade]
  have hleft : cpmt_left sqrtAt40000 1 1 (100:ℚ) 400 0 = 200 := by
    rw [cpmt_left, skewed_sqrt_arg]
    norm_num [sqrtAt40000]
  have hright : cpmt_right 1 1 (100:ℚ) 400 0 = 100 := by
    rw [cpmt_right, skewed_dir]
    norm_num
  rw [hleft, hright, if_neg (by norm_num : ¬(200:ℚ) < 100), skewed_dir]
  norm_num

/-- The traded-out quote at the skewed pool is 200. -/
lemma skewed_out :
    skewedDiamondPool.toLiquidityPool.get_amount_out skewedDiamondPool.token_x 100
      = 200 := by
  obtain ⟨hx, hy, hf, _, _⟩ := skewed_fields
  rw [get_amount_out_x _ skewed_ne, hx, hy, hf]
  norm_num

/-- The deltas, fee and loss computed by core_protocol at the skewed pool. -/
lemma skewed_core_values :
    core_delta_x sqrtAt40000 skewedDiamondPool unitFeed = 100
    ∧ core_delta_y sqrtAt40000 skewedDiamondPool unitFeed = -200
    ∧ core_swap_fee sqrtAt40000 skewedDiamondPool unitFeed = 0
    ∧ core_lp_loss sqrtAt40000 skewedDiamondPool unitFeed = 50 := by
  obtain ⟨hx, hy, hf, hpx, hpy⟩ := skewed_fields
  have hdx : core_delta_x sqrtAt40000 skewedDiamondPool unitFeed = 100 := by
    rw [core_delta_x, skewed_trade]
    norm_num
  have hdy : core_delta_y sqrtAt40000 skewedDiamondPool unitFeed = -200 := by
    rw [core_delta_y, skewed_trade]
    norm_num [skewed_out]
  have hsw : core_swap_fee sqrtAt40000 skewedDiamondPool unitFeed = 0 := by
    rw [core_swap_fee, skewed_trade]
    norm_num [hpx, hf]
  refine ⟨hdx, hdy, hsw, ?_⟩
  rw [core_lp_loss, hdx, hdy, hsw, hpx, hpy]
  norm_num [skewedDiamondPool]

/-- The arbitrageur profit computed by core_protocol at the skewed pool. -/
lemma skewed_core_profit : core_profit sqrtAt40000 skewedDiamondPool unitFeed 0 = 50 := by
  obtain ⟨-, -, hsw, hlp⟩ := skewed_core_values
  rw [core_profit, hlp, hsw]
  ring

/-- C1 witness: at `skewedDiamondPool` under the unit feed the computed
profit is 50 > 0, and the theorem applies; its lvr conjunct is exhibited. -/
theorem core_protocol_profitable_execution_witness :
    skewedDiamondPool.token_x ≠ skewedDiamondPool.token_y
    ∧ 0 < skewedDiamondPool.toLiquidityPool.reserve_x
    ∧ 0 < skewedDiamondPool.toLiquidityPool.reserve_y
    ∧ 0 < unitFeed skewedDiamondPool.token_x
    ∧ 0 < unitFeed skewedDiamondPool.token_y
    ∧ 0 < core_profit sqrtAt40000 skewedDiamondPool unitFeed 0
    ∧ (core_protocol sqrtAt40000 skewedDiamondPool unitFeed 0).lvr
        = skewedDiamondPool.lvr + core_lp_loss sqrtAt40000 skewedDiamondPool unitFeed := by
  obtain ⟨hx, hy, hf, hpx, hpy⟩ := skewed_fields
  have h1 := skewed_ne
  have h2 : 0 < skewedDiamondPool.toLiquidityPool.reserve_x := by rw [hx]; norm_num
  have h3 : 0 < skewedDiamondPool.toLiquidityPool.reserve_y := by rw [hy]; norm_num
  have h4 : 0 < unitFeed skewedDiamondPool.token_x := by rw [hpx]; norm_num
  have h5 : 0 < unitFeed skewedDiamondPool.token_y := by rw [hpy]; norm_num
  have h6 : 0 < core_profit sqrtAt40000 skewedDiamondPool unitFeed 0 := by
    rw [skewed_core_profit]
    norm_num
  exact ⟨h1, h2, h3, h4, h5, h6,
    (core_protocol_profitable_execution sqrtAt40000 skewedDiamondPool unitFeed 0
      h1 h2 h3 h4 h5 h6).2.2.1⟩

/-- C5: under a fixed price feed with positive prices, total_value_locked
of a DiamondPool (pool reserves plus vault reserves, valued at the feed) is
unchanged by a vault_rebalancing pass and by a vault_conversion pass. -/
theorem vault_passes_preserve_tvl (pool : DiamondPool) (pf : PriceFeed)
    (hne : pool.token_x ≠ pool.token_y)
    (hvtx : pool.vault.token_x = pool.token_x) (hvty : pool.vault.token_y = pool.token_y)
    (hpx : 0 < pf pool.token_x) (hpy : 0 < pf pool.token_y)
    (hvx : 0 ≤ pool.vault.reserve pool.token_x)
    (hvy : 0 ≤ pool.vault.reserve pool.token_y) :
    (vault_rebalancing pool pf).total_value_locked pf = pool.total_value_locked pf
    ∧ (vault_conversion pool pf).total_value_locked pf = pool.total_value_locked pf := by
  have hx0 : pf pool.token_x ≠ 0 := ne_of_gt hpx
  have hy0 : pf pool.token_y ≠ 0 := ne_of_gt hpy
  constructor
  · rw [vault_rebalancing]
    split_ifs with h1 h2
    · simp only [DiamondPool.total_value_locked, LiquidityPool.add_liquidity,
        Vault.reserve_x, Vault.reserve_y, hvtx, hvty]
      rw [Function.update_same, Function.update_noteq hne,
        Function.update_noteq (Ne.symm hne), Function.update_same,
        Function.update_noteq hne, Function.update_same,
        Function.update_noteq (Ne.symm hne), Function.update_same]
      ring
    · simp only [DiamondPool.total_value_locked, LiquidityPool.add_liquidity,
        Vault.reserve_x, Vault.reserve_y, hvtx, hvty]
      rw [Function.update_noteq hne, Function.update_same,
        Function.update_same, Function.update_noteq (Ne.symm hne),
        Function.update_noteq hne, Function.update_same,
        Function.update_same, Function.update_noteq (Ne.symm hne)]
      ring
    · rfl
  · rw [vault_conversion]
    split_ifs with h1 h2
    · simp only [DiamondPool.total_value_locked, LiquidityPool.add_liquidity,
        Vault.reserve_x, Vault.reserve_y, hvtx, hvty]
      rw [Function.update_noteq hne, Function.update_same,
        Function.update_same, Function.update_noteq (Ne.symm hne),
        Function.update_noteq hne, Function.update_same]
      field_simp
      ring
    · simp only [DiamondPool.total_value_locked, LiquidityPool.add_liquidity,
        Vault.reserve_x, Vault.reserve_y, hvtx, hvty]
      rw [Function.update_same, Function.update_noteq hne,
        Function.update_noteq (Ne.symm hne), Function.update_same,
        Function.update_same, Function.update_noteq (Ne.symm hne)]
      field_simp
      ring
    · rfl

/-- C5 witness: the theorem applied to `balancedDiamondPool` under the unit
feed, with every hypothesis discharged. -/
theorem vault_passes_preserve_tvl_witness :
    balancedDiamondPool.token_x ≠ balancedDiamondPool.token_y
    ∧ balancedDiamondPool.vault.token_x = balancedDiamondPool.token_x
    ∧ balancedDiamondPool.vault.token_y = balancedDiamondPool.token_y
    ∧ 0 < unitFeed balancedDiamondPool.token_x
    ∧ 0 < unitFeed balancedDiamondPool.token_y
    ∧ 0 ≤ balancedDiamondPool.vault.reserve balancedDiamondPool.token_x
    ∧ 0 ≤ balancedDiamondPool.vault.reserve balancedDiamondPool.token_y
    ∧ (vault_rebalancing balancedDiamondPool unitFeed).total_value_locked unitFeed
        = balancedDiamondPool.total_value_locked unitFeed := by
  have h1 : balancedDiamondPool.token_x ≠ balancedDiamondPool.token_y := by
    simp [balancedDiamondPool]
  have h2 : balancedDiamondPool.vault.token_x = balancedDiamondPool.token_x := rfl
  have h3 : balancedDiamondPool.vault.token_y = balancedDiamondPool.token_y := rfl
  have h4 : 0 < unitFeed balancedDiamondPool.token_x := by norm_num [unitFeed]
  have h5 : 0 < unitFeed balancedDiamondPool.token_y := by norm_num [unitFeed]
  have h6 : 0 ≤ balancedDiamondPool.vault.reserve balancedDiamondPool.token_x :=
    le_refl 0
  have h7 : 0 ≤ balancedDiamondPool.vault.reserve balancedDiamondPool.token_y :=
    le_refl 0
  exact ⟨h1, h2, h3, h4, h5, h6, h7,
    (vault_passes_preserve_tvl balancedDiamondPool unitFeed h1 h2 h3 h4 h5 h6 h7).1⟩

/-- Algebraic core of the vault-nonnegativity argument: with an exact
square root L of rx*ry/(tp*g) and trade size a = L - rx/g ≥ 0, the residual
left after the re-peg, (ry - out) - (rx + a*(1-beta))*tp, is nonnegative. -/
lemma repeg_residual_nonneg (rx ry g L a beta f tp : ℚ)
    (hrx : 0 < rx) (hry : 0 < ry) (hg : 0 < g) (hgf : g = 1 - f) (hf : 0 ≤ f)
    (hb : 0 ≤ beta) (htp : 0 < tp)
    (hL2 : L ^ 2 * (tp * g) = rx * ry)
    (ha : a = L - rx / g) (ha0 : 0 ≤ a) :
    0 ≤ (ry - a * g * ry / (rx + a * g)) - (rx + a * (1 - beta)) * tp := by
  have hrg : 0 < rx / g := div_pos hrx hg
  have hL0 : 0 < L := by linarith
  have hgL : 0 < g * L := mul_pos hg hL0
  have hden : rx + a * g = g * L := by
    rw [ha]
    field_simp
    ring
  have hout : ry - a * g * ry / (rx + a * g) = rx * ry / (g * L) := by
    rw [hden, eq_div_iff hgL.ne']
    rw [sub_mul, div_mul_cancel₀ _ hgL.ne']
    linear_combination (-ry) * hden
  have hval : rx * ry / (g * L) = L * tp := by
    rw [div_eq_iff hgL.ne']
    linear_combination -hL2
  rw [hout, hval]
  have h1f : (1:ℚ) - f ≠ 0 := by rw [← hgf]; exact hg.ne'
  have hkey : L * tp - (rx + a * (1 - beta)) * tp = tp * (a * beta + rx * f / g) := by
    rw [ha, hgf]
    field_simp
    ring
  rw [hkey]
  exact mul_nonneg htp.le
    (add_nonneg (mul_nonneg ha0 hb) (div_nonneg (mul_nonneg hrx.le hf) hg.le))

/-- The full vault credit of the x-to-y branch — beta share of the
traded-out amount plus the re-peg residual — never drives the vault
negative. -/
lemma vault_credit_nonneg (rx ry g L a beta f tp vy : ℚ)
    (hrx : 0 < rx) (hry : 0 < ry) (hg : 0 < g) (hgf : g = 1 - f) (hf : 0 ≤ f)
    (hb : 0 ≤ beta) (htp : 0 < tp) (hvy : 0 ≤ vy)
    (hL2 : L ^ 2 * (tp * g) = rx * ry)
    (ha : a = L - rx / g) (ha0 : 0 ≤ a) :
    0 ≤ vy + |-(a * g * ry / (rx + a * g))| * beta
      + ((ry + -(a * g * ry / (rx + a * g))) - (rx + a * (1 - beta)) * tp) := by
  have hden : 0 < rx + a * g := by nlinarith [mul_nonneg ha0 hg.le]
  have hout0 : 0 ≤ a * g * ry / (rx + a * g) :=
    div_nonneg (mul_nonneg (mul_nonneg ha0 hg.le) hry.le) hden.le
  have habs : |-(a * g * ry / (rx + a * g))| = a * g * ry / (rx + a * g) := by
    rw [abs_neg, abs_of_nonneg hout0]
  rw [habs]
  have hres := repeg_residual_nonneg rx ry g L a beta f tp hrx hry hg hgf hf hb htp hL2
    ha ha0
  have hcred : 0 ≤ a * g * ry / (rx + a * g) * beta := mul_nonneg hout0 hb
  linarith

/-- Nonnegativity of both vault balances across vault_rebalancing. -/
lemma vault_rebalancing_nonneg (pool : DiamondPool) (pf : PriceFeed)
    (hne : pool.token_x ≠ pool.token_y)
    (hvtx : pool.vault.token_x = pool.token_x) (hvty : pool.vault.token_y = pool.token_y)
    (hpx : 0 < pf pool.token_x) (hpy : 0 < pf pool.token_y)
    (hvx : 0 ≤ pool.vault.reserve pool.token_x)
    (hvy : 0 ≤ pool.vault.reserve pool.token_y) :
    0 ≤ (vault_rebalancing pool pf).vault.reserve pool.token_x
    ∧ 0 ≤ (vault_rebalancing pool pf).vault.reserve pool.token_y := by
  have htp : 0 < pf pool.token_x / pf pool.token_y := div_pos hpx hpy
  rw [vault_rebalancing]
  split_ifs with h1 h2
  · simp only [Vault.reserve_x, Vault.reserve_y, hvtx, hvty] at h1
    constructor
    · simp only [Vault.reserve_x, Vault.reserve_y, hvtx, hvty]
      rw [Function.update_same, Function.update_noteq hne]
      have hle : pool.vault.reserve pool.token_y / (pf pool.token_x / pf pool.token_y)
          ≤ pool.vault.reserve pool.token_x := (div_le_iff₀ htp).mpr (le_of_lt h1)
      linarith
    · simp only [Vault.reserve_x, Vault.reserve_y, hvtx, hvty]
      rw [Function.update_noteq (Ne.symm hne), Function.update_same]
      linarith
  · simp only [Vault.reserve_x, Vault.reserve_y, hvtx, hvty] at h2
    constructor
    · simp only [Vault.reserve_x, Vault.reserve_y, hvtx, hvty]
      rw [Function.update_noteq hne, Function.update_same]
      linarith
    · simp only [Vault.reserve_x, Vault.reserve_y, hvtx, hvty]
      rw [Function.update_same, Function.update_noteq (Ne.symm hne)]
      have hle : pool.vault.reserve pool.token_x * (pf pool.token_x / pf pool.token_y)
          ≤ pool.vault.reserve pool.token_y := by
        have := (lt_div_iff₀ htp).mp h2
        linarith
      linarith
  · exact ⟨hvx, hvy⟩

/-- Nonnegativity of both vault balances across vault_conversion. -/
lemma vault_conversion_nonneg (pool : DiamondPool) (pf : PriceFeed)
    (hne : pool.token_x ≠ pool.token_y)
    (hvtx : pool.vault.token_x = pool.token_x) (hvty : pool.vault.token_y = pool.token_y)
    (hvx : 0 ≤ pool.vault.reserve pool.token_x)
    (hvy : 0 ≤ pool.vault.reserve pool.token_y) :
    0 ≤ (vault_conversion pool pf).vault.reserve pool.token_x
    ∧ 0 ≤ (vault_conversion pool pf).vault.reserve pool.token_y := by
  rw [vault_conversion]
  split_ifs with h1 h2
  · constructor
    · simp only [Vault.reserve_x, Vault.reserve_y, hvtx, hvty]
      rw [Function.update_noteq hne]
      exact hvx
    · simp only [Vault.reserve_x, Vault.reserve_y, hvtx, hvty]
      rw [Function.update_same]
      linarith
  · constructor
    · simp only [Vault.reserve_x, Vault.reserve_y, hvtx, hvty]
      rw [Function.update_same]
      linarith
    · simp only [Vault.reserve_x, Vault.reserve_y, hvtx, hvty]
      rw [Function.update_noteq (Ne.symm hne)]
      exact hvy
  · exact ⟨hvx, hvy⟩

/-- Dividing by a quotient is multiplying by its flip. -/
lemma div_div_flip (x b c : ℚ) : x / (b / c) = x * (c / b) := by
  rw [div_div_eq_mul_div, mul_div_assoc]

/-- Nonnegativity of both vault balances across core_protocol, assuming the
square root is exact at the argument it is evaluated on. -/
lemma core_protocol_vault_nonneg (s : ℚ → ℚ) (pool : DiamondPool) (pf : PriceFeed)
    (txf : ℚ)
    (hne : pool.token_x ≠ pool.token_y)
    (hrx : 0 < pool.toLiquidityPool.reserve_x) (hry : 0 < pool.toLiquidityPool.reserve_y)
    (hpx : 0 < pf pool.token_x) (hpy : 0 < pf pool.token_y)
    (hf0 : 0 ≤ pool.fee) (hf1 : pool.fee < 1)
    (hb : 0 ≤ pool.beta) (htxf : 0 ≤ txf)
    (hvx : 0 ≤ pool.vault.reserve pool.token_x)
    (hvy : 0 ≤ pool.vault.reserve pool.token_y)
    (hs0 : 0 ≤ s (cpmt_sqrt_arg (pf pool.token_x) (pf pool.token_y)
        pool.toLiquidityPool.reserve_x pool.toLiquidityPool.reserve_y pool.fee))
    (hs2 : s (cpmt_sqrt_arg (pf pool.token_x) (pf pool.token_y)
          pool.toLiquidityPool.reserve_x pool.toLiquidityPool.reserve_y pool.fee) ^ 2
        = cpmt_sqrt_arg (pf pool.token_x) (pf pool.token_y)
          pool.toLiquidityPool.reserve_x pool.toLiquidityPool.reserve_y pool.fee) :
    0 ≤ (core_protocol s pool pf txf).vault.reserve pool.token_x
    ∧ 0 ≤ (core_protocol s pool pf txf).vault.reserve pool.token_y := by
  have h1f : (0:ℚ) < 1 - pool.fee := by linarith
  have htp : 0 < pf pool.token_x / pf pool.token_y := div_pos hpx hpy
  by_cases hp : 0 < core_profit s pool pf txf
  · by_cases hlr : cpmt_left s (pf pool.token_x) (pf pool.token_y)
        pool.toLiquidityPool.reserve_x pool.toLiquidityPool.reserve_y pool.fee
      < cpmt_right (pf pool.token_x) (pf pool.token_y)
        pool.toLiquidityPool.reserve_x pool.toLiquidityPool.reserve_y pool.fee
    · exfalso
      have htr : core_trade s pool pf = (false, 0) := by
        rw [core_trade, compute_profit_maximizing_trade, if_pos hlr]
      have hdx : core_delta_x s pool pf = 0 := by
        rw [core_delta_x, htr]
        norm_num [get_amount_out_zero]
      have hdy : core_delta_y s pool pf = 0 := by
        rw [core_delta_y, htr]
        norm_num
      have hsw : core_swap_fee s pool pf = 0 := by
        rw [core_swap_fee, htr]
        norm_num
      have hlp : core_lp_loss s pool pf = 0 := by
        rw [core_lp_loss, hdx, hdy, hsw]
        ring
      have hprof : core_profit s pool pf txf = -(txf * core_target_price pool pf) := by
        rw [core_profit, hlp, hsw]
        ring
      have htp' : 0 < core_target_price pool pf := htp
      rw [hprof] at hp
      nlinarith [mul_nonneg htxf htp'.le]
    · have haR := not_lt.1 hlr
      have htr : core_trade s pool pf
          = (cpmt_dir (pf pool.token_x) (pf pool.token_y) pool.toLiquidityPool.reserve_x
              pool.toLiquidityPool.reserve_y,
            cpmt_left s (pf pool.token_x) (pf pool.token_y) pool.toLiquidityPool.reserve_x
                pool.toLiquidityPool.reserve_y pool.fee
              - cpmt_right (pf pool.token_x) (pf pool.token_y)
                pool.toLiquidityPool.reserve_x pool.toLiquidityPool.reserve_y pool.fee) := by
        rw [core_trade, compute_profit_maximizing_trade, if_neg hlr]
      cases hd : cpmt_dir (pf pool.token_x) (pf pool.token_y)
          pool.toLiquidityPool.reserve_x pool.toLiquidityPool.reserve_y with
      | true =>
          rw [hd] at htr
          obtain ⟨e1, e2, e3, e4, e5, e6, e7⟩ :=
            core_protocol_x_state s pool pf txf hne hp (by rw [htr])
          have hcr : cpmt_right (pf pool.token_x) (pf pool.token_y)
              pool.toLiquidityPool.reserve_x pool.toLiquidityPool.reserve_y pool.fee
              = pool.toLiquidityPool.reserve_x / (1 - pool.fee) := by
            simp [cpmt_right, hd]
          have harg : cpmt_sqrt_arg (pf pool.token_x) (pf pool.token_y)
              pool.toLiquidityPool.reserve_x pool.toLiquidityPool.reserve_y pool.fee
              = pool.toLiquidityPool.reserve_x * pool.toLiquidityPool.reserve_y
                * pf pool.token_y / (pf pool.token_x * (1 - pool.fee)) := by
            simp [cpmt_sqrt_arg, hd]
          have hs2' : cpmt_left s (pf pool.token_x) (pf pool.token_y)
              pool.toLiquidityPool.reserve_x pool.toLiquidityPool.reserve_y pool.fee ^ 2
              = pool.toLiquidityPool.reserve_x * pool.toLiquidityPool.reserve_y
                * pf pool.token_y / (pf pool.token_x * (1 - pool.fee)) := by
            rw [cpmt_left, hs2]
            exact harg
          have hL2 : cpmt_left s (pf pool.token_x) (pf pool.token_y)
              pool.toLiquidityPool.reserve_x pool.toLiquidityPool.reserve_y pool.fee ^ 2
                * ((pf pool.token_x / pf pool.token_y) * (1 - pool.fee))
              = pool.toLiquidityPool.reserve_x * pool.toLiquidityPool.reserve_y := by
            rw [hs2']
            field_simp
          have hdx : core_delta_x s pool pf
              = cpmt_left s (pf pool.token_x) (pf pool.token_y)
                  pool.toLiquidityPool.reserve_x pool.toLiquidityPool.reserve_y pool.fee
                - pool.toLiquidityPool.reserve_x / (1 - pool.fee) := by
            rw [core_delta_x, htr, hcr]
            norm_num
          have hdy : core_delta_y s pool pf
              = -(pool.toLiquidityPool.get_amount_out pool.token_x
                  (cpmt_left s (pf pool.token_x) (pf pool.token_y)
                      pool.toLiquidityPool.reserve_x pool.toLiquidityPool.reserve_y
                      pool.fee
                    - pool.toLiquidityPool.reserve_x / (1 - pool.fee))) := by
            rw [core_delta_y, htr, hcr]
            norm_num
          have ha0 : 0 ≤ cpmt_left s (pf pool.token_x) (pf pool.token_y)
              pool.toLiquidityPool.reserve_x pool.toLiquidityPool.reserve_y pool.fee
              - pool.toLiquidityPool.reserve_x / (1 - pool.fee) := by
            rw [← hcr]
            exact sub_nonneg.mpr haR
          refine ⟨by rw [e3]; exact hvx, ?_⟩
          rw [e4, hdx, hdy, get_amount_out_x pool.toLiquidityPool hne]
          simp only [core_target_price, LiquidityPool.reserve_x, LiquidityPool.reserve_y]
          exact vault_credit_nonneg pool.toLiquidityPool.reserve_x
            pool.toLiquidityPool.reserve_y (1 - pool.fee)
            (cpmt_left s (pf pool.token_x) (pf pool.token_y)
              pool.toLiquidityPool.reserve_x pool.toLiquidityPool.reserve_y pool.fee)
            (cpmt_left s (pf pool.token_x) (pf pool.token_y)
                pool.toLiquidityPool.reserve_x pool.toLiquidityPool.reserve_y pool.fee
              - pool.toLiquidityPool.reserve_x / (1 - pool.fee))
            pool.beta pool.fee (pf pool.token_x / pf pool.token_y)
            (pool.vault.reserve pool.token_y)
            hrx hry h1f rfl hf0 hb htp hvy hL2 rfl ha0
      | false =>
          rw [hd] at htr
          obtain ⟨e1, e2, e3, e4, e5, e6, e7⟩ :=
            core_protocol_y_state s pool pf txf hne hp (by rw [htr])
          have hcr : cpmt_right (pf pool.token_x) (pf pool.token_y)
              pool.toLiquidityPool.reserve_x pool.toLiquidityPool.reserve_y pool.fee
              = pool.toLiquidityPool.reserve_y / (1 - pool.fee) := by
            simp [cpmt_right, hd]
          have harg : cpmt_sqrt_arg (pf pool.token_x) (pf pool.token_y)
              pool.toLiquidityPool.reserve_x pool.toLiquidityPool.reserve_y pool.fee
              = pool.toLiquidityPool.reserve_x * pool.toLiquidityPool.reserve_y
                * pf pool.token_x / (pf pool.token_y * (1 - pool.fee)) := by
            simp [cpmt_sqrt_arg, hd]
          have hs2' : cpmt_left s (pf pool.token_x) (pf pool.token_y)
              pool.toLiquidityPool.reserve_x pool.toLiquidityPool.reserve_y pool.fee ^ 2
              = pool.toLiquidityPool.reserve_x * pool.toLiquidityPool.reserve_y
                * pf pool.token_x / (pf pool.token_y * (1 - pool.fee)) := by
            rw [cpmt_left, hs2]
            exact harg
          have hL2 : cpmt_left s (pf pool.token_x) (pf pool.token_y)
              pool.toLiquidityPool.reserve_x pool.toLiquidityPool.reserve_y pool.fee ^ 2
                * ((pf pool.token_y / pf pool.token_x) * (1 - pool.fee))
              = pool.toLiquidityPool.reserve_y * pool.toLiquidityPool.reserve_x := by
            rw [hs2']
            field_simp
            ring
          have hdy : core_delta_y s pool pf
              = cpmt_left s (pf pool.token_x) (pf pool.token_y)
                  pool.toLiquidityPool.reserve_x pool.toLiquidityPool.reserve_y pool.fee
                - pool.toLiquidityPool.reserve_y / (1 - pool.fee) := by
            rw [core_delta_y, htr, hcr]
            norm_num
          have hdx : core_delta_x s pool pf
              = -(pool.toLiquidityPool.get_amount_out pool.token_y
                  (cpmt_left s (pf pool.token_x) (pf pool.token_y)
                      pool.toLiquidityPool.reserve_x pool.toLiquidityPool.reserve_y
                      pool.fee
                    - pool.toLiquidityPool.reserve_y / (1 - pool.fee))) := by
            rw [core_delta_x, htr, hcr]
            norm_num
          have ha0 : 0 ≤ cpmt_left s (pf pool.token_x) (pf pool.token_y)
              pool.toLiquidityPool.reserve_x pool.toLiquidityPool.reserve_y pool.fee
              - pool.toLiquidityPool.reserve_y / (1 - pool.fee) := by
            rw [← hcr]
            exact sub_nonneg.mpr haR
          refine ⟨?_, by rw [e3]; exact hvy⟩
          rw [e4, hdx, hdy, get_amount_out_y pool.toLiquidityPool]
          simp only [core_target_price, LiquidityPool.reserve_x, LiquidityPool.reserve_y]
          rw [div_div_flip]
          exact vault_credit_nonneg pool.toLiquidityPool.reserve_y
            pool.toLiquidityPool.reserve_x (1 - pool.fee)
            (cpmt_left s (pf pool.token_x) (pf pool.token_y)
              pool.toLiquidityPool.reserve_x pool.toLiquidityPool.reserve_y pool.fee)
            (cpmt_left s (pf pool.token_x) (pf pool.token_y)
                pool.toLiquidityPool.reserve_x pool.toLiquidityPool.reserve_y pool.fee
              - pool.toLiquidityPool.reserve_y / (1 - pool.fee))
            pool.beta pool.fee (pf pool.token_y / pf pool.token_x)
            (pool.vault.reserve pool.token_x)
            hry hrx h1f rfl hf0 hb (div_pos hpy hpx) hvx hL2 rfl ha0
  · unfold core_protocol
    rw [if_neg hp]
    exact ⟨hvx, hvy⟩

/-- C6: starting from a vault with both balances nonnegative, under a price
feed with positive prices (and the data-model invariants: positive pool
reserves, fee in [0,1), nonnegative beta and tx fee, vault keyed on the
pool's token pair, and a square root that is exact at the argument
core_protocol evaluates it on), each of core_protocol — residual-excess
credit included — vault_rebalancing and vault_conversion leaves both vault
balances nonnegative. -/
theorem vault_reserves_nonnegative (s : ℚ → ℚ) (pool : DiamondPool) (pf : PriceFeed)
    (txf : ℚ)
    (hne : pool.token_x ≠ pool.token_y)
    (hvtx : pool.vault.token_x = pool.token_x) (hvty : pool.vault.token_y = pool.token_y)
    (hrx : 0 < pool.toLiquidityPool.reserve_x) (hry : 0 < pool.toLiquidityPool.reserve_y)
    (hpx : 0 < pf pool.token_x) (hpy : 0 < pf pool.token_y)
    (hf0 : 0 ≤ pool.fee) (hf1 : pool.fee < 1)
    (hb : 0 ≤ pool.beta) (htxf : 0 ≤ txf)
    (hvx : 0 ≤ pool.vault.reserve pool.token_x)
    (hvy : 0 ≤ pool.vault.reserve pool.token_y)
    (hs0 : 0 ≤ s (cpmt_sqrt_arg (pf pool.token_x) (pf pool.token_y)
        pool.toLiquidityPool.reserve_x pool.toLiquidityPool.reserve_y pool.fee))
    (hs2 : s (cpmt_sqrt_arg (pf pool.token_x) (pf pool.token_y)
          pool.toLiquidityPool.reserve_x pool.toLiquidityPool.reserve_y pool.fee) ^ 2
        = cpmt_sqrt_arg (pf pool.token_x) (pf pool.token_y)
          pool.toLiquidityPool.reserve_x pool.toLiquidityPool.reserve_y pool.fee) :
    (0 ≤ (core_protocol s pool pf txf).vault.reserve pool.token_x
      ∧ 0 ≤ (core_protocol s pool pf txf).vault.reserve pool.token_y)
    ∧ (0 ≤ (vault_rebalancing pool pf).vault.reserve pool.token_x
      ∧ 0 ≤ (vault_rebalancing pool pf).vault.reserve pool.token_y)
    ∧ (0 ≤ (vault_conversion pool pf).vault.reserve pool.token_x
      ∧ 0 ≤ (vault_conversion pool pf).vault.reserve pool.token_y) :=
  ⟨core_protocol_vault_nonneg s pool pf txf hne hrx hry hpx hpy hf0 hf1 hb htxf hvx hvy
      hs0 hs2,
    vault_rebalancing_nonneg pool pf hne hvtx hvty hpx hpy hvx hvy,
    vault_conversion_nonneg pool pf hne hvtx hvty hvx hvy⟩

/-- C6 witness: the theorem applied to `skewedDiamondPool` (where the
profitable x-to-y branch of core_protocol actually runs) under the unit
feed and zero tx fee, with every hypothesis discharged. -/
theorem vault_reserves_nonnegative_witness :
    0 ≤ sqrtAt40000 (cpmt_sqrt_arg (unitFeed skewedDiamondPool.token_x)
        (unitFeed skewedDiamondPool.token_y) skewedDiamondPool.toLiquidityPool.reserve_x
        skewedDiamondPool.toLiquidityPool.reserve_y skewedDiamondPool.fee)
    ∧ sqrtAt40000 (cpmt_sqrt_arg (unitFeed skewedDiamondPool.token_x)
          (unitFeed skewedDiamondPool.token_y) skewedDiamondPool.toLiquidityPool.reserve_x
          skewedDiamondPool.toLiquidityPool.reserve_y skewedDiamondPool.fee) ^ 2
        = cpmt_sqrt_arg (unitFeed skewedDiamondPool.token_x)
            (unitFeed skewedDiamondPool.token_y)
            skewedDiamondPool.toLiquidityPool.reserve_x
            skewedDiamondPool.toLiquidityPool.reserve_y skewedDiamondPool.fee
    ∧ 0 < core_profit sqrtAt40000 skewedDiamondPool unitFeed 0
    ∧ (0 ≤ (core_protocol sqrtAt40000 skewedDiamondPool unitFeed 0).vault.reserve
          skewedDiamondPool.token_x
      ∧ 0 ≤ (core_protocol sqrtAt40000 skewedDiamondPool unitFeed 0).vault.reserve
          skewedDiamondPool.token_y) := by
  obtain ⟨hx, hy, hf, hpx, hpy⟩ := skewed_fields
  have hargq : cpmt_sqrt_arg (unitFeed skewedDiamondPool.token_x)
      (unitFeed skewedDiamondPool.token_y) skewedDiamondPool.toLiquidityPool.reserve_x
      skewedDiamondPool.toLiquidityPool.reserve_y skewedDiamondPool.fee = 40000 := by
    rw [hx, hy, hf, hpx, hpy]
    exact skewed_sqrt_arg
  have hs0 : 0 ≤ sqrtAt40000 (cpmt_sqrt_arg (unitFeed skewedDiamondPool.token_x)
      (unitFeed skewedDiamondPool.token_y) skewedDiamondPool.toLiquidityPool.reserve_x
      skewedDiamondPool.toLiquidityPool.reserve_y skewedDiamondPool.fee) := by
    rw [hargq]
    norm_num [sqrtAt40000]
  have hs2 : sqrtAt40000 (cpmt_sqrt_arg (unitFeed skewedDiamondPool.token_x)
        (unitFeed skewedDiamondPool.token_y) skewedDiamondPool.toLiquidityPool.reserve_x
        skewedDiamondPool.toLiquidityPool.reserve_y skewedDiamondPool.fee) ^ 2
      = cpmt_sqrt_arg (unitFeed skewedDiamondPool.token_x)
          (unitFeed skewedDiamondPool.token_y)
          skewedDiamondPool.toLiquidityPool.reserve_x
          skewedDiamondPool.toLiquidityPool.reserve_y skewedDiamondPool.fee := by
    rw [hargq]
    norm_num [sqrtAt40000]
  have hprof : 0 < core_profit sqrtAt40000 skewedDiamondPool unitFeed 0 := by
    rw [skewed_core_profit]
    norm_num
  refine ⟨hs0, hs2, hprof, ?_⟩
  exact (vault_reserves_nonnegative sqrtAt40000 skewedDiamondPool unitFeed 0
    skewed_ne rfl rfl
    (by rw [hx]; norm_num) (by rw [hy]; norm_num)
    (by rw [hpx]; norm_num) (by rw [hpy]; norm_num)
    (by rw [hf]) (by rw [hf]; norm_num)
    (by norm_num [skewedDiamondPool]) (le_refl 0)
    (le_refl 0) (le_refl 0) hs0 hs2).1

end LVR
